import Mathlib

/-!
Shallow embedding of the `clone` package (src/clone/__init__.py): a tool that
downloads a repository's default-branch zip archive from a hosting site and
extracts it, without a git client.  Filesystem state is a flat map from
normalized paths to nodes; network transfer and probe outcomes are supplied by
an oracle (`World`), since HTTP transport is an external service.  External
primitives (urlretrieve, zipfile extraction, os.rename) are modelled at the
granularity the module's code observes them.
-/

namespace Clone

/-- Error values corresponding to the Python exceptions the module can raise. -/
inductive Err
  | fileExists (p : String)
  | isADirectory (p : String)
  | notADirectory (p : String)
  | keyError (s : String)
  | assertionError (msg : String)
  | badZip (p : String)
  | networkError
  | osError
  | getuserFailed
  deriving DecidableEq, Repr

/-- A zip archive, modelled by its entry-name list (ZipFile.namelist()). -/
abbrev ZipData := List String

/-- A filesystem node: a regular file (optionally holding a readable zip
archive) or a directory. -/
inductive FsNode
  | file (zip : Option ZipData)
  | dir
  deriving DecidableEq, Repr

/-- Filesystem state: a flat association list from normalized paths to nodes. -/
abbrev FS := List (String × FsNode)

/-- ASCII lowering of one character, as str.lower acts on the identifiers the
module handles. -/
def charLower (c : Char) : Char :=
  if 65 ≤ c.toNat ∧ c.toNat ≤ 90 then Char.ofNat (c.toNat + 32) else c

/-- str.lower on ASCII strings. -/
def strLower (s : String) : String := String.mk (s.toList.map charLower)

/-- str.startswith. -/
def strStartsWith (s pre : String) : Bool := pre.toList.isPrefixOf s.toList

/-- str.endswith. -/
def strEndsWith (s suf : String) : Bool :=
  suf.toList.reverse.isPrefixOf s.toList.reverse

/-- Strip trailing path separators, as the OS does when resolving a path like
p/ to the node p. -/
def normP (p : String) : String :=
  String.mk ((p.toList.reverse.dropWhile (fun c => c == '/')).reverse)

/-- os.path.join for the shapes the module produces: an absolute second
component replaces the first, a relative one is appended with a separator. -/
def pjoin (a b : String) : String :=
  if strStartsWith b "/" then b
  else if strEndsWith a "/" then a ++ b
  else a ++ "/" ++ b

/-- os.path.basename: the part after the last separator. -/
def basenameOf (p : String) : String :=
  String.mk ((p.toList.reverse.takeWhile (fun c => c != '/')).reverse)

/-- Node stored at a path, compared after normalization. -/
def FS.lookupNode (fs : FS) (p : String) : Option FsNode :=
  (fs.find? (fun e => e.1 == normP p)).map (fun e => e.2)

/-- os.path.isfile. -/
def FS.isfile (fs : FS) (p : String) : Bool :=
  match fs.lookupNode p with
  | some (.file _) => true
  | _ => false

/-- os.path.isdir. -/
def FS.isdir (fs : FS) (p : String) : Bool :=
  match fs.lookupNode p with
  | some .dir => true
  | _ => false

/-- Create or overwrite the node at a path. -/
def FS.insert (fs : FS) (p : String) (n : FsNode) : FS :=
  (normP p, n) :: fs.filter (fun e => e.1 != normP p)

/-- os.remove / deletion of the node at a path. -/
def FS.remove (fs : FS) (p : String) : FS :=
  fs.filter (fun e => e.1 != normP p)

/-- Outcome of urllib.request.urlretrieve for one URL: success with the
archive's contents, transport failure leaving a partial file, or transport
failure leaving nothing. -/
inductive TransferResult
  | ok (data : ZipData)
  | failDirty
  | failClean
  deriving DecidableEq, Repr

/-- Oracle for the external network: per-URL transfer outcome for urlretrieve,
and per-URL probe outcome for urlopen (false means HTTPError/URLError). -/
structure World where
  transfer : String → TransferResult
  probe : String → Bool

/-- Observable side-effecting operations, recorded in order. -/
inductive Ev
  | download (url : String) (dest : String)
  | extract (parentDir : String)
  | rename (src : String) (dst : String)
  deriving DecidableEq, Repr

/-- Result of one operation: the Python return value or raised exception, the
filesystem afterwards, and the effects performed, in order. -/
structure Out (α : Type) where
  res : Except Err α
  fs : FS
  evs : List Ev
  deriving Repr

/-- Destination path computed by download_file (lines 41-44): default is the
cwd joined with the URL basename; a directory destination gets the URL
basename appended. -/
def computedSavePath (source_url : String) (save_path : Option String)
    (cwd : String) (fs : FS) : String :=
  let sp0 := match save_path with
    | none => pjoin cwd (basenameOf source_url)
    | some p => p
  if fs.isdir sp0 then pjoin sp0 (basenameOf source_url) else sp0

/-- download_file (lines 31-54): refuse an existing file at the computed
destination, otherwise attempt the transfer; on transport failure remove any
partial file at the destination before re-raising. -/
def download_file (w : World) (source_url : String) (save_path : Option String)
    (cwd : String) (fs : FS) : Out String :=
  let sp := computedSavePath source_url save_path cwd fs
  if fs.isfile sp then ⟨.error (.fileExists sp), fs, []⟩
  else
    match w.transfer source_url with
    | .ok data =>
      if fs.isdir sp then ⟨.error .osError, fs, [.download source_url sp]⟩
      else ⟨.ok sp, fs.insert sp (.file (some data)), [.download source_url sp]⟩
    | .failDirty =>
      let fs1 := fs.insert sp (.file none)
      let fs2 := if fs1.isfile sp then fs1.remove sp else fs1
      ⟨.error .networkError, fs2, [.download source_url sp]⟩
    | .failClean =>
      let fs2 := if fs.isfile sp then fs.remove sp else fs
      ⟨.error .networkError, fs2, [.download source_url sp]⟩

/-- Number of occurrences of a character in a string. -/
def countChar (s : String) (c : Char) : Nat :=
  (s.toList.filter (fun x => x == c)).length

/-- Entry-list scan of clone_from_url (lines 74-80): assert each examined name
is nonempty and not absolute, and stop at the first entry with exactly one
separator that ends in a separator; with no such entry the archive is deemed
empty.  The scan stops as soon as a root is found, so later entries are not
examined. -/
def findRoot : ZipData → Except Err String
  | [] => .error (.assertionError "Downloaded repo was empty.")
  | name :: rest =>
    if name == "" || strStartsWith name "/" then
      .error (.assertionError "Downloaded repo contained absolute path.")
    else if countChar name '/' == 1 && strEndsWith name "/" then
      .ok name
    else findRoot rest

/-- Contents of the zip archive stored at a path, when the path holds one
(zipfile.ZipFile succeeding). -/
def readZipAt (fs : FS) (p : String) : Option ZipData :=
  match fs.lookupNode p with
  | some (.file (some d)) => some d
  | _ => none

/-- Extraction of a single archive member under a parent directory, following
zipfile's per-member behaviour: a directory member is created unless already a
directory (failing over a file), a file member is written, overwriting a file
but failing over a directory. -/
def extractOne (parentDir : String) (fs : FS) (name : String) : Except Err FS :=
  let target := pjoin parentDir name
  if strEndsWith name "/" then
    if fs.isdir target then .ok fs
    else
      match fs.lookupNode target with
      | some _ => .error .osError
      | none => .ok (fs.insert target .dir)
  else
    if fs.isdir target then .error .osError
    else .ok (fs.insert target (.file none))

/-- ZipFile.extractall over the member list, stopping at the first failing
member and keeping the partial state. -/
def extractList (parentDir : String) : ZipData → FS → FS × Option Err
  | [], fs => (fs, none)
  | name :: rest, fs =>
    match extractOne parentDir fs name with
    | .error e => (fs, some e)
    | .ok fs1 => extractList parentDir rest fs1

/-- Cleanup of the downloaded archive (lines 91-93): remove the zip file when
it still exists as a file. -/
def cleanupZip (zip_path : String) (fs : FS) : FS :=
  if fs.isfile zip_path then fs.remove zip_path else fs

/-- Body of clone_from_url (lines 70-93) once the parent directory is known:
download the archive into the parent, scan its entries for the root directory,
refuse an existing extraction target, extract, check the root appeared, and
delete the archive on every exit path. -/
def clone_from_url_at (w : World) (source_url parentDir : String) (fs : FS) :
    Out String :=
  let d := download_file w source_url (some parentDir) parentDir fs
  match d.res with
  | .error e => ⟨.error e, d.fs, d.evs⟩
  | .ok zip_path =>
    match readZipAt d.fs zip_path with
    | none => ⟨.error (.badZip zip_path), cleanupZip zip_path d.fs, d.evs⟩
    | some data =>
      match findRoot data with
      | .error e => ⟨.error e, cleanupZip zip_path d.fs, d.evs⟩
      | .ok root =>
        let downloaded_path := pjoin parentDir root
        if d.fs.isdir downloaded_path then
          ⟨.error (.isADirectory downloaded_path), cleanupZip zip_path d.fs, d.evs⟩
        else
          let ex := extractList parentDir data d.fs
          let evs := d.evs ++ [.extract parentDir]
          match ex.2 with
          | some e => ⟨.error e, cleanupZip zip_path ex.1, evs⟩
          | none =>
            if ex.1.isdir downloaded_path then
              ⟨.ok downloaded_path, cleanupZip zip_path ex.1, evs⟩
            else
              ⟨.error (.notADirectory downloaded_path), cleanupZip zip_path ex.1, evs⟩

/-- clone_from_url (lines 57-93): default the parent to the cwd, validate an
explicit parent, then run the body. -/
def clone_from_url (w : World) (source_url : String) (parent? : Option String)
    (cwd : String) (fs : FS) : Out String :=
  match parent? with
  | none => clone_from_url_at w source_url cwd fs
  | some parentDir =>
    if fs.isdir parentDir then clone_from_url_at w source_url parentDir fs
    else ⟨.error (.notADirectory parentDir), fs, []⟩

/-- Keys of URL_TEMPLATES (lines 19-22), in insertion order. -/
def siteKeys : List String := ["bitbucket", "github"]

/-- Membership test against URL_TEMPLATES keys. -/
def siteHasTemplate (s : String) : Bool := siteKeys.contains s

/-- URL_TEMPLATES[site].format(user=..., repo=...): substitution of the user
and repo fields into the matching template (lines 19-22, 124, 199).  Only
invoked with a key of the table. -/
def siteUrl (site user repo : String) : String :=
  if site == "bitbucket" then
    "https://bitbucket.org/" ++ user ++ "/" ++ repo ++ "/get/master.zip"
  else
    "https://github.com/" ++ user ++ "/" ++ repo ++ "/archive/master.zip"

/-- Last index of a character in a character list, or -1 when absent,
mirroring str.rfind. -/
def rfindIdx (cs : List Char) (c : Char) : Int :=
  match cs.reverse.findIdx? (fun x => x == c) with
  | none => -1
  | some i => (cs.length : Int) - 1 - (i : Int)

/-- Root part of os.path.splitext on posix: split at the last dot after the
last separator, unless every character between them is a dot (a leading-dot
name has no extension). -/
def splitextBase (p : String) : String :=
  let cs := p.toList
  let sepIndex := rfindIdx cs '/'
  let dotIndex := rfindIdx cs '.'
  if decide (sepIndex < dotIndex) &&
      (List.range cs.length).any (fun i =>
        decide (sepIndex < (i : Int)) && decide ((i : Int) < dotIndex) &&
          (cs.getD i ' ' != '.')) then
    String.mk (cs.take dotIndex.toNat)
  else p

/-- Site resolution shared by clone (lines 117-122) and search (lines
190-195): lowercase the identifier, look it up among the template keys, retry
with a dotted suffix stripped, and otherwise raise KeyError with the lowered
identifier.  Returns the canonical key that matched. -/
def resolveSite (site : String) : Except Err String :=
  if siteHasTemplate (strLower site) then .ok (strLower site)
  else if siteHasTemplate (splitextBase (strLower site)) then
    .ok (splitextBase (strLower site))
  else .error (.keyError (strLower site))

/-- POSIX os.rename as the module uses it: move the node at src to dst,
failing when src is missing or when the node kinds of src and an existing dst
disagree. -/
def renameFS (fs : FS) (src dst : String) : FS × Option Err :=
  match fs.lookupNode src, fs.lookupNode dst with
  | none, _ => (fs, some .osError)
  | some .dir, some (.file _) => (fs, some .osError)
  | some (.file _), some .dir => (fs, some .osError)
  | some n, _ => ((fs.remove src).insert dst n, none)

/-- Body of clone (lines 113-133) once the parent directory is known: refuse
an existing directory at parent/repo, resolve the site, build the URL,
materialize, rename the extracted directory onto parent/repo, and check the
result exists. -/
def cloneAt (w : World) (repo user site parentDir : String) (fs : FS) :
    Out String :=
  let path := pjoin parentDir repo
  if fs.isdir path then ⟨.error (.isADirectory path), fs, []⟩
  else
    match resolveSite site with
    | .error e => ⟨.error e, fs, []⟩
    | .ok canon =>
      let url := siteUrl canon user repo
      let c := clone_from_url_at w url parentDir fs
      match c.res with
      | .error e => ⟨.error e, c.fs, c.evs⟩
      | .ok downloaded_path =>
        let rn := renameFS c.fs downloaded_path path
        let evs := c.evs ++ [.rename downloaded_path path]
        match rn.2 with
        | some e => ⟨.error e, rn.1, evs⟩
        | none =>
          if rn.1.isdir path then ⟨.ok path, rn.1, evs⟩
          else ⟨.error (.notADirectory path), rn.1, evs⟩

/-- clone (lines 96-133): default the parent to the cwd, validate an explicit
parent, then run the body. -/
def clone (w : World) (repo user site : String) (parent? : Option String)
    (cwd : String) (fs : FS) : Out String :=
  match parent? with
  | none => cloneAt w repo user site cwd fs
  | some parentDir =>
    if fs.isdir parentDir then cloneAt w repo user site parentDir fs
    else ⟨.error (.notADirectory parentDir), fs, []⟩

/-- Snapshot of the OS identity sources consulted by iter_default_users.
getuser and getlogin are none when the underlying call raises; the
environment entries are none when the variable is unset; home is the result
of os.path.expanduser, which returns the path unchanged on failure. -/
structure Env where
  getuser : Option String
  home : String
  envUSER : Option String
  envUSERNAME : Option String
  getlogin : Option String
  deriving DecidableEq, Repr

/-- Deduplication loop of iter_default_users (lines 153-157): yield each
candidate whose lowercase form has not been seen. -/
def dedupCI : List String → List String → List String
  | [], _ => []
  | c :: rest, covered =>
    if covered.contains (strLower c) then dedupCI rest covered
    else c :: dedupCI rest (strLower c :: covered)

/-- iter_default_users (lines 136-157): getpass.getuser() and the
home-directory basename, then USER and USERNAME when set, then os.getlogin()
with its errors swallowed, deduplicated case-insensitively.  A getuser
failure is not caught and propagates when the generator is first consumed. -/
def iter_default_users (env : Env) : Except Err (List String) :=
  match env.getuser with
  | none => .error .getuserFailed
  | some gu =>
    let candidates := [gu, basenameOf env.home]
      ++ (match env.envUSER with | some v => [v] | none => [])
      ++ (match env.envUSERNAME with | some v => [v] | none => [])
      ++ (match env.getlogin with | some v => [v] | none => [])
    .ok (dedupCI candidates [])

/-- User/repo pairs in the order the nested loops of search visit them (lines
197-198): users outer, repos inner. -/
def candPairs (users repos : List String) : List (String × String) :=
  users.flatMap (fun u => repos.map (fun r => (u, r)))

/-- Inner loops of search for one resolved site (lines 196-205): probe each
candidate URL, skipping probe failures and yielding (repo, user, site) for
successes; record every probed URL. -/
def probeCands (w : World) (canon : String) :
    List (String × String) → List (String × String × String) × List String
  | [] => ([], [])
  | p :: rest =>
    (if w.probe (siteUrl canon p.1 p.2) then
        (p.2, p.1, canon) :: (probeCands w canon rest).1
      else (probeCands w canon rest).1,
      siteUrl canon p.1 p.2 :: (probeCands w canon rest).2)

/-- Trace of one run of the search generator: the triples yielded, the URLs
probed in order, and the error terminating the generator, if any. -/
structure SearchOut where
  yields : List (String × String × String)
  probes : List String
  err : Option Err
  deriving DecidableEq, Repr

/-- Generator body of search for explicit lists (lines 189-205): resolve each
site in turn, failing the whole generator at the first unresolvable one, and
probe every (user, repo) pair under each resolved site. -/
def searchGen (w : World) (repos users : List String) :
    List String → SearchOut
  | [] => ⟨[], [], none⟩
  | site :: rest =>
    match resolveSite site with
    | .error e => ⟨[], [], some e⟩
    | .ok canon =>
      ⟨(probeCands w canon (candPairs users repos)).1 ++
          (searchGen w repos users rest).yields,
        (probeCands w canon (candPairs users repos)).2 ++
          (searchGen w repos users rest).probes,
        (searchGen w repos users rest).err⟩

/-- Canonical form of a site identifier: the key resolution lands on, or the
identifier itself when resolution fails. -/
def canonSite (s : String) : String :=
  match resolveSite s with
  | .ok c => c
  | .error _ => s

/-- Stated from the spec, for comparison with searchGen: all (site, user,
repo) combinations in site-major, then-user, then-repo order. -/
def specCombos (sites users repos : List String) :
    List (String × String × String) :=
  sites.flatMap (fun s => users.flatMap (fun u => repos.map (fun r => (s, u, r))))

/-- Stated from the spec, for comparison with searchGen: the candidate URL of
one (site, user, repo) combination. -/
def specComboUrl (c : String × String × String) : String :=
  siteUrl (canonSite c.1) c.2.1 c.2.2

/-- Decidable form of site resolvability. -/
def resolvesOk (s : String) : Bool :=
  match resolveSite s with
  | .ok _ => true
  | .error _ => false

/-- Stated from the spec, for comparison with searchGen: the triples whose
probe succeeds, in combination order, carrying the canonical site. -/
def specYields (w : World) (sites users repos : List String) :
    List (String × String × String) :=
  (specCombos sites users repos).filterMap
    (fun c => if w.probe (specComboUrl c) then some (c.2.2, c.2.1, canonSite c.1)
      else none)

/-- Stated from the spec, for comparison with searchGen: the URLs probed, in
combination order. -/
def specUrls (sites users repos : List String) : List String :=
  (specCombos sites users repos).map specComboUrl

theorem FS.lookupNode_insert_self (fs : FS) (p : String) (n : FsNode) :
    (fs.insert p n).lookupNode p = some n := by
  simp [FS.insert, FS.lookupNode, List.find?_cons]

theorem FS.lookupNode_eq_none_iff (fs : FS) (p : String) :
    fs.lookupNode p = none ↔ ∀ x ∈ fs, (x.1 == normP p) = false := by
  simp [FS.lookupNode, List.find?_eq_none]

theorem FS.lookupNode_remove_self (fs : FS) (p : String) :
    (fs.remove p).lookupNode p = none := by
  rw [FS.lookupNode_eq_none_iff]
  intro x hx
  have hmem := List.mem_filter.mp hx
  simpa using hmem.2

theorem FS.remove_insert_cancel (fs : FS) (p : String) (n : FsNode)
    (h : fs.lookupNode p = none) : (fs.insert p n).remove p = fs := by
  have hall : ∀ x ∈ fs, (x.1 != normP p) = true := by
    intro x hx
    have := (FS.lookupNode_eq_none_iff fs p).mp h x hx
    simp [bne, this]
  show List.filter _ (_ :: List.filter _ fs) = fs
  rw [List.filter_cons_of_neg (by simp), List.filter_eq_self.mpr hall,
    List.filter_eq_self.mpr hall]

theorem FS.isfile_insert_file_self (fs : FS) (p : String) (z : Option ZipData) :
    (fs.insert p (.file z)).isfile p = true := by
  simp [FS.isfile, FS.lookupNode_insert_self]

theorem FS.isfile_remove_self (fs : FS) (p : String) :
    (fs.remove p).isfile p = false := by
  simp [FS.isfile, FS.lookupNode_remove_self]

theorem cleanupZip_isfile_self (zp : String) (fs : FS) :
    (cleanupZip zp fs).isfile zp = false := by
  unfold cleanupZip
  split
  · exact FS.isfile_remove_self fs zp
  · next h => exact Bool.not_eq_true _ |>.mp h

theorem resolveSite_error_eq (s : String) (e : Err)
    (h : resolveSite s = .error e) : e = .keyError (strLower s) := by
  unfold resolveSite at h
  split at h
  · exact absurd h (by simp)
  · split at h
    · exact absurd h (by simp)
    · exact (Except.error.injEq _ _ |>.mp h).symm

theorem resolveSite_ok_cases (s c : String) (h : resolveSite s = .ok c) :
    c = "bitbucket" ∨ c = "github" := by
  unfold resolveSite at h
  have key : ∀ t : String, siteHasTemplate t = true → t = "bitbucket" ∨ t = "github" := by
    intro t ht
    simpa [siteHasTemplate, siteKeys, List.contains, or_comm] using ht
  split at h
  · next ht => exact (Except.ok.injEq _ _ |>.mp h) ▸ key _ ht
  · split at h
    · next ht => exact (Except.ok.injEq _ _ |>.mp h) ▸ key _ ht
    · exact absurd h (by simp)

theorem canonSite_eq_of_ok (s c : String) (h : resolveSite s = .ok c) :
    canonSite s = c := by
  simp [canonSite, h]

theorem resolvesOk_iff (s : String) :
    resolvesOk s = true ↔ ∃ c, resolveSite s = .ok c := by
  unfold resolvesOk
  constructor
  · intro h
    split at h
    · next c heq => exact ⟨c, heq⟩
    · exact absurd h (by simp)
  · rintro ⟨c, hc⟩
    simp [hc]

theorem contains_eq_false_iff (l : List String) (a : String) :
    l.contains a = false ↔ a ∉ l := by
  simp [List.contains]

theorem dedupCI_not_covered (l : List String) :
    ∀ cov, ∀ x ∈ dedupCI l cov, strLower x ∉ cov := by
  induction l with
  | nil => intro cov x hx; simp [dedupCI] at hx
  | cons c rest ih =>
    intro cov x hx
    unfold dedupCI at hx
    split at hx
    · exact ih cov x hx
    · next hc =>
      rcases List.mem_cons.mp hx with rfl | hmem
      · exact (contains_eq_false_iff cov (strLower x)).mp (Bool.not_eq_true _ |>.mp hc)
      · have := ih (strLower c :: cov) x hmem
        exact fun hin => this (List.mem_cons_of_mem _ hin)

theorem dedupCI_pairwise (l : List String) :
    ∀ cov, (dedupCI l cov).Pairwise (fun a b => strLower a ≠ strLower b) := by
  induction l with
  | nil => intro cov; simp [dedupCI]
  | cons c rest ih =>
    intro cov
    unfold dedupCI
    split
    · exact ih cov
    · refine List.Pairwise.cons ?_ (ih (strLower c :: cov))
      intro b hb
      have := dedupCI_not_covered rest (strLower c :: cov) b hb
      intro heq
      exact this (heq ▸ List.mem_cons_self _ _)

theorem probeCands_eq (w : World) (canon : String)
    (pairs : List (String × String)) :
    probeCands w canon pairs =
      (pairs.filterMap (fun p =>
          if w.probe (siteUrl canon p.1 p.2) then some (p.2, p.1, canon)
          else none),
        pairs.map (fun p => siteUrl canon p.1 p.2)) := by
  induction pairs with
  | nil => rfl
  | cons p rest ih =>
    simp only [probeCands, ih, List.filterMap_cons, List.map_cons]
    split
    · next h => simp [h]
    · next h => simp [Bool.not_eq_true _ |>.mp h]

theorem specCombos_cons (s : String) (rest users repos : List String) :
    specCombos (s :: rest) users repos =
      (candPairs users repos).map (fun p => (s, p.1, p.2)) ++
        specCombos rest users repos := by
  simp [specCombos, candPairs, List.map_flatMap, List.map_map,
    Function.comp_def]

theorem searchGen_all_resolved (w : World) (repos users : List String) :
    ∀ sites : List String, (∀ s ∈ sites, resolvesOk s = true) →
      searchGen w repos users sites =
        ⟨specYields w sites users repos, specUrls sites users repos, none⟩ := by
  intro sites
  induction sites with
  | nil => intro _; rfl
  | cons s rest ih =>
    intro h
    obtain ⟨c, hc⟩ := (resolvesOk_iff s).mp (h s (List.mem_cons_self _ _))
    have hcanon := canonSite_eq_of_ok s c hc
    have htail := ih (fun x hx => h x (List.mem_cons_of_mem _ hx))
    simp only [searchGen, hc, htail, probeCands_eq]
    simp [specYields, specUrls, specCombos_cons, List.filterMap_append,
      List.map_append, List.filterMap_map, List.map_map, Function.comp_def,
      specComboUrl, hcanon]

theorem searchGen_err_after (w : World) (repos users : List String)
    (s : String) (e : Err) (hs : resolveSite s = .error e) :
    ∀ pre : List String, (∀ x ∈ pre, resolvesOk x = true) → ∀ post : List String,
      searchGen w repos users (pre ++ s :: post) =
        ⟨specYields w pre users repos, specUrls pre users repos, some e⟩ := by
  intro pre
  induction pre with
  | nil =>
    intro _ post
    simp [searchGen, hs, specYields, specUrls, specCombos]
  | cons x rest ih =>
    intro h post
    obtain ⟨c, hc⟩ := (resolvesOk_iff x).mp (h x (List.mem_cons_self _ _))
    have hcanon := canonSite_eq_of_ok x c hc
    have htail := ih (fun y hy => h y (List.mem_cons_of_mem _ hy)) post
    simp only [List.cons_append, searchGen, hc, htail, probeCands_eq]
    simp [htail, specYields, specUrls, specCombos_cons, List.filterMap_append,
      List.map_append, List.filterMap_map, List.map_map, Function.comp_def,
      specComboUrl, hcanon]

theorem probeCands_yield_site (w : World) (canon : String) :
    ∀ pairs : List (String × String), ∀ tr ∈ (probeCands w canon pairs).1,
      tr.2.2 = canon := by
  intro pairs
  induction pairs with
  | nil => intro tr htr; simp [probeCands] at htr
  | cons p rest ih =>
    intro tr htr
    unfold probeCands at htr
    split at htr
    · rcases List.mem_cons.mp htr with rfl | hmem
      · rfl
      · exact ih tr hmem
    · exact ih tr htr

theorem searchGen_yield_site (w : World) (repos users : List String) :
    ∀ sites : List String, ∀ tr ∈ (searchGen w repos users sites).yields,
      tr.2.2 = "bitbucket" ∨ tr.2.2 = "github" := by
  intro sites
  induction sites with
  | nil => intro tr htr; simp [searchGen] at htr
  | cons s rest ih =>
    intro tr htr
    unfold searchGen at htr
    split at htr
    · simp at htr
    · next c hc =>
      rcases List.mem_append.mp htr with hmem | hmem
      · have := probeCands_yield_site w c (candPairs users repos) tr hmem
        exact this ▸ resolveSite_ok_cases s c hc
      · exact ih tr hmem

/-- Claim C1, counterexample: an archive whose entry list contains an
absolute path after its first top-level directory entry passes
materialization without an archive-integrity error, because the entry scan
stops at the first top-level directory entry and never examines the
absolute-path entry. -/
theorem C1_counterexample :
    ("/x" ∈ (["a/", "/x"] : ZipData) ∧ strStartsWith "/x" "/" = true) ∧
    (clone_from_url ⟨fun _ => .ok ["a/", "/x"], fun _ => true⟩ "http://h/r.zip"
        (some "p") "cwd" [("p", FsNode.dir)]).res = .ok "p/a/" :=
  ⟨⟨by simp, by decide⟩, rfl⟩

/-- Claim C1, amended: the entry scan examines entries in order only up to and
including the first entry with exactly one separator that ends in one; when it
fails — on an empty or absolute-path entry it examines, or by exhausting the
list without finding a top-level directory entry — clone_from_url propagates
that integrity error, performs no extraction, deletes the downloaded archive,
and leaves the filesystem exactly as it was. -/
theorem C1_scan_failure_clean (w : World) (url parentDir cwd : String)
    (fs : FS) (data : ZipData) (e : Err)
    (hpar : fs.isdir parentDir = true)
    (hsp : fs.lookupNode (pjoin parentDir (basenameOf url)) = none)
    (htr : w.transfer url = .ok data)
    (hroot : findRoot data = .error e) :
    clone_from_url w url (some parentDir) cwd fs =
      ⟨.error e, fs, [.download url (pjoin parentDir (basenameOf url))]⟩ := by
  have hnotfile : fs.isfile (pjoin parentDir (basenameOf url)) = false := by
    simp [FS.isfile, hsp]
  have hnotdir : fs.isdir (pjoin parentDir (basenameOf url)) = false := by
    simp [FS.isdir, hsp]
  have hcomp : computedSavePath url (some parentDir) parentDir fs
      = pjoin parentDir (basenameOf url) := by
    simp [computedSavePath, hpar]
  have hdl : download_file w url (some parentDir) parentDir fs =
      ⟨.ok (pjoin parentDir (basenameOf url)),
        fs.insert (pjoin parentDir (basenameOf url)) (.file (some data)),
        [.download url (pjoin parentDir (basenameOf url))]⟩ := by
    simp [download_file, hcomp, hnotfile, htr, hnotdir]
  have hread : readZipAt
      (fs.insert (pjoin parentDir (basenameOf url)) (.file (some data)))
      (pjoin parentDir (basenameOf url)) = some data := by
    simp [readZipAt, FS.lookupNode_insert_self]
  have hclean : cleanupZip (pjoin parentDir (basenameOf url))
      (fs.insert (pjoin parentDir (basenameOf url)) (.file (some data))) = fs := by
    simp [cleanupZip, FS.isfile_insert_file_self,
      FS.remove_insert_cancel fs _ _ hsp]
  simp [clone_from_url, clone_from_url_at, hpar, hdl, hread, hroot, hclean]

/-- Claim C1, witness for the amended theorem at a concrete archive holding
only an absolute-path entry. -/
theorem C1_scan_failure_clean_witness :
    clone_from_url ⟨fun _ => .ok ["/x"], fun _ => true⟩ "http://h/r.zip"
        (some "p") "cwd" [("p", FsNode.dir)] =
      ⟨.error (.assertionError "Downloaded repo contained absolute path."),
        [("p", FsNode.dir)],
        [.download "http://h/r.zip"
          (pjoin "p" (basenameOf "http://h/r.zip"))]⟩ :=
  C1_scan_failure_clean ⟨fun _ => .ok ["/x"], fun _ => true⟩ "http://h/r.zip"
    "p" "cwd" [("p", FsNode.dir)] ["/x"]
    (.assertionError "Downloaded repo contained absolute path.")
    (by decide) (by decide) rfl rfl

/-- Claim C2, counterexample: with every identity source unavailable, the
effective-user-name lookup (getpass.getuser, the one source not wrapped in a
try) raises, and iter_default_users propagates the error instead of yielding
an empty sequence. -/
theorem C2_counterexample :
    iter_default_users ⟨none, "~", none, none, none⟩ = .error .getuserFailed :=
  rfl

/-- Claim C2, amended: whenever the effective-user-name lookup succeeds,
iter_default_users never raises: each other source that is unavailable is
skipped silently (the login-name lookup even when it errors), and the yielded
sequence contains no two names comparing equal case-insensitively. -/
theorem C2_no_raise_dedup (env : Env) (u : String)
    (h : env.getuser = some u) :
    ∃ l, iter_default_users env = .ok l ∧
      l.Pairwise (fun a b => strLower a ≠ strLower b) := by
  simp only [iter_default_users, h]
  exact ⟨_, rfl, dedupCI_pairwise _ _⟩

/-- Claim C2, witness for the amended theorem on a snapshot with three sources
agreeing up to case and the USERNAME variable unset. -/
theorem C2_no_raise_dedup_witness :
    ∃ l, iter_default_users
        ⟨some "Al", "/home/al", some "AL", none, some "al"⟩ = .ok l ∧
      l.Pairwise (fun a b => strLower a ≠ strLower b) :=
  C2_no_raise_dedup ⟨some "Al", "/home/al", some "AL", none, some "al"⟩
    "Al" rfl

/-- Claim C3: for explicit lists whose sites all resolve, search probes the
candidates in site-major, then-user, then-repo order, yields exactly the
combinations whose probe succeeds, in that same relative order, silently
skipping the combinations whose probe fails, and terminates without error; in
particular the search for foo under alice and bob on github and bitbucket
probes the four candidate URLs in the stated order and yields all four triples
when every probe succeeds. -/
theorem C3_search_order :
    (∀ (w : World) (repos users sites : List String),
      (∀ s ∈ sites, resolvesOk s = true) →
      searchGen w repos users sites =
        ⟨specYields w sites users repos, specUrls sites users repos, none⟩) ∧
    searchGen ⟨fun _ => .failClean, fun _ => true⟩ ["foo"] ["alice", "bob"]
        ["github", "bitbucket"] =
      ⟨[("foo", "alice", "github"), ("foo", "bob", "github"),
          ("foo", "alice", "bitbucket"), ("foo", "bob", "bitbucket")],
        ["https://github.com/alice/foo/archive/master.zip",
          "https://github.com/bob/foo/archive/master.zip",
          "https://bitbucket.org/alice/foo/get/master.zip",
          "https://bitbucket.org/bob/foo/get/master.zip"], none⟩ :=
  ⟨fun w repos users sites h => searchGen_all_resolved w repos users sites h,
    by decide⟩

/-- Claim C3, witness at one site, one user, one repo, with a probe that
fails, so nothing is yielded while the URL is still probed. -/
theorem C3_search_order_witness :
    searchGen ⟨fun _ => .failClean, fun _ => false⟩ ["r"] ["u"] ["github"] =
      ⟨specYields ⟨fun _ => .failClean, fun _ => false⟩ ["github"] ["u"] ["r"],
        specUrls ["github"] ["u"] ["r"], none⟩ :=
  C3_search_order.1 ⟨fun _ => .failClean, fun _ => false⟩ ["r"] ["u"]
    ["github"] (by decide)

/-- Claim C4, counterexample: with parent/repo existing as a regular file,
clone does not fail with the AlreadyExists error — the guard tests isdir only
— and it performs a download, an extraction and a rename attempt before
failing at the rename. -/
theorem C4_counterexample :
    FS.isfile [("p", FsNode.dir), ("p/repo", FsNode.file none)] "p/repo"
        = true ∧
    (clone ⟨fun _ => .ok ["repo-master/"], fun _ => true⟩ "repo" "alice"
        "github" (some "p") "cwd"
        [("p", FsNode.dir), ("p/repo", FsNode.file none)]).res
        = .error .osError ∧
    (clone ⟨fun _ => .ok ["repo-master/"], fun _ => true⟩ "repo" "alice"
        "github" (some "p") "cwd"
        [("p", FsNode.dir), ("p/repo", FsNode.file none)]).evs =
      [.download "https://github.com/alice/repo/archive/master.zip"
          "p/master.zip",
        .extract "p", .rename "p/repo-master/" "p/repo"] :=
  ⟨rfl, rfl, rfl⟩

/-- Claim C4, amended: if parent/repo already exists as a directory before
cloning begins, clone fails with the AlreadyExists error (IsADirectoryError on
that path) and performs no download, extraction, or rename, leaving the
filesystem unchanged; the guard does not cover parent/repo existing as a
non-directory file. -/
theorem C4_existing_dir_guard (w : World)
    (repo user site parentDir cwd : String) (fs : FS)
    (hpar : fs.isdir parentDir = true)
    (hdir : fs.isdir (pjoin parentDir repo) = true) :
    clone w repo user site (some parentDir) cwd fs =
      ⟨.error (.isADirectory (pjoin parentDir repo)), fs, []⟩ := by
  simp [clone, cloneAt, hpar, hdir]

/-- Claim C4, witness for the amended theorem with a directory already at
p/repo. -/
theorem C4_existing_dir_guard_witness :
    clone ⟨fun _ => .ok [], fun _ => true⟩ "repo" "alice" "github" (some "p")
        "cwd" [("p", FsNode.dir), ("p/repo", FsNode.dir)] =
      ⟨.error (.isADirectory (pjoin "p" "repo")),
        [("p", FsNode.dir), ("p/repo", FsNode.dir)], []⟩ :=
  C4_existing_dir_guard ⟨fun _ => .ok [], fun _ => true⟩ "repo" "alice"
    "github" "p" "cwd" [("p", FsNode.dir), ("p/repo", FsNode.dir)]
    (by decide) (by decide)

/-- Claim C5: site resolution is determined by the lowercased identifier, so
identifiers differing only in case resolve identically; GitHub, github.x and
github all resolve to the canonical key github; and when neither the lowercased
identifier nor its suffix-stripped form is a template key, resolution fails
with UnknownSite, a KeyError carrying the lowered identifier. -/
theorem C5_site_resolution :
    (∀ s t : String, strLower s = strLower t → resolveSite s = resolveSite t) ∧
    (resolveSite "GitHub" = .ok "github" ∧
      resolveSite "github.x" = .ok "github" ∧
      resolveSite "github" = .ok "github" ∧
      resolveSite "gitlab" = .error (.keyError "gitlab")) ∧
    (∀ s : String, siteHasTemplate (strLower s) = false →
      siteHasTemplate (splitextBase (strLower s)) = false →
      resolveSite s = .error (.keyError (strLower s))) := by
  refine ⟨?_, ⟨rfl, rfl, rfl, rfl⟩, ?_⟩
  · intro s t h
    simp [resolveSite, h]
  · intro s h1 h2
    simp [resolveSite, h1, h2]

/-- Claim C5, witness: case-insensitivity applied to two spellings of github,
and failure on an identifier that stays unknown after suffix-stripping. -/
theorem C5_site_resolution_witness :
    resolveSite "GITHUB" = resolveSite "gitHub" ∧
    resolveSite "gitlab.x" = .error (.keyError "gitlab.x") :=
  ⟨C5_site_resolution.1 "GITHUB" "gitHub" (by decide),
    C5_site_resolution.2.2 "gitlab.x" (by decide) (by decide)⟩

/-- Claim C6: a site list containing an unresolvable identifier fails the
whole search with UnknownSite when that identifier is reached: the sites
before it are probed normally, the unresolvable one is not skipped, no later
site is probed, and the error is the KeyError on the lowered identifier. -/
theorem C6_unknown_site_fails (w : World) (repos users pre post : List String)
    (s : String) (e : Err) (hpre : ∀ x ∈ pre, resolvesOk x = true)
    (hs : resolveSite s = .error e) :
    searchGen w repos users (pre ++ s :: post) =
      ⟨specYields w pre users repos, specUrls pre users repos, some e⟩ ∧
      e = .keyError (strLower s) :=
  ⟨searchGen_err_after w repos users s e hs pre hpre post,
    resolveSite_error_eq s e hs⟩

/-- Claim C6, witness: gitlab between github and bitbucket fails the search
after github's probes, and bitbucket is never probed. -/
theorem C6_unknown_site_fails_witness :
    searchGen ⟨fun _ => .failClean, fun _ => true⟩ ["foo"] ["alice"]
        (["github"] ++ "gitlab" :: ["bitbucket"]) =
      ⟨specYields ⟨fun _ => .failClean, fun _ => true⟩ ["github"] ["alice"]
          ["foo"],
        specUrls ["github"] ["alice"] ["foo"],
        some (.keyError "gitlab")⟩ ∧
      (Err.keyError "gitlab") = .keyError (strLower "gitlab") :=
  C6_unknown_site_fails ⟨fun _ => .failClean, fun _ => true⟩ ["foo"]
    ["alice"] ["github"] ["bitbucket"] "gitlab" (.keyError "gitlab")
    (by decide) rfl

/-- Claim C7: when a file already occupies the computed destination path,
download_file fails with AlreadyExists (FileExistsError on that path) before
any transfer event, and the filesystem — including the pre-existing file's
contents — is unchanged. -/
theorem C7_no_overwrite (w : World) (url : String) (sp? : Option String)
    (cwd : String) (fs : FS)
    (h : fs.isfile (computedSavePath url sp? cwd fs) = true) :
    download_file w url sp? cwd fs =
      ⟨.error (.fileExists (computedSavePath url sp? cwd fs)), fs, []⟩ := by
  simp [download_file, h]

/-- Claim C7, witness with the destination given explicitly as an existing
file. -/
theorem C7_no_overwrite_witness :
    download_file ⟨fun _ => .failClean, fun _ => true⟩ "http://h/f.zip"
        (some "d") "c" [("d", FsNode.file none)] =
      ⟨.error (.fileExists (computedSavePath "http://h/f.zip" (some "d") "c"
          [("d", FsNode.file none)])),
        [("d", FsNode.file none)], []⟩ :=
  C7_no_overwrite ⟨fun _ => .failClean, fun _ => true⟩ "http://h/f.zip"
    (some "d") "c" [("d", FsNode.file none)] (by decide)

/-- Claim C8: when the transfer fails after the destination path was computed
and found free, download_file propagates the network error and no file,
partial or otherwise, remains at the destination path — the partial file of a
dirty failure is removed before the error is raised. -/
theorem C8_failure_cleanup (w : World) (url : String) (sp? : Option String)
    (cwd : String) (fs : FS)
    (hfree : fs.isfile (computedSavePath url sp? cwd fs) = false)
    (hfail : w.transfer url = .failDirty ∨ w.transfer url = .failClean) :
    (download_file w url sp? cwd fs).res = .error .networkError ∧
    (download_file w url sp? cwd fs).fs.isfile
      (computedSavePath url sp? cwd fs) = false := by
  rcases hfail with hf | hf
  · refine ⟨by simp [download_file, hfree, hf], ?_⟩
    simp [download_file, hfree, hf, FS.isfile_insert_file_self,
      FS.isfile_remove_self]
  · refine ⟨by simp [download_file, hfree, hf], ?_⟩
    simp [download_file, hfree, hf]

/-- Claim C8, witness: a dirty transport failure at a fresh destination leaves
no file behind. -/
theorem C8_failure_cleanup_witness :
    (download_file ⟨fun _ => .failDirty, fun _ => true⟩ "http://h/f.zip"
        none "c" []).res = .error .networkError ∧
    (download_file ⟨fun _ => .failDirty, fun _ => true⟩ "http://h/f.zip"
        none "c" []).fs.isfile
      (computedSavePath "http://h/f.zip" none "c" []) = false :=
  C8_failure_cleanup ⟨fun _ => .failDirty, fun _ => true⟩ "http://h/f.zip"
    none "c" [] (by decide) (Or.inl rfl)

/-- Claim C9: whenever the archive download inside clone_from_url succeeded,
the downloaded archive file is absent from the filesystem clone_from_url
returns, whether the call returns the extracted path or propagates an error
of any kind. -/
theorem C9_zip_deleted (w : World) (url parentDir cwd : String) (fs : FS)
    (zp : String) (hpar : fs.isdir parentDir = true)
    (hdl : (download_file w url (some parentDir) parentDir fs).res = .ok zp) :
    (clone_from_url w url (some parentDir) cwd fs).fs.isfile zp = false := by
  simp only [clone_from_url, hpar, if_true, clone_from_url_at]
  rw [hdl]
  repeat' split
  all_goals simp_all [cleanupZip_isfile_self]

/-- Claim C9, witness on a successful end-to-end materialization: the archive
file p/r.zip is gone afterwards. -/
theorem C9_zip_deleted_witness :
    (clone_from_url ⟨fun _ => .ok ["a/"], fun _ => true⟩ "http://h/r.zip"
        (some "p") "c" [("p", FsNode.dir)]).fs.isfile "p/r.zip" = false :=
  C9_zip_deleted ⟨fun _ => .ok ["a/"], fun _ => true⟩ "http://h/r.zip" "p"
    "c" [("p", FsNode.dir)] "p/r.zip" (by decide) rfl

/-- Claim C10: every triple search yields carries the canonical site
identifier: it is a key of the template table, it is already lowercase, and it
resolves to itself — without suffix-stripping — when passed on to clone. -/
theorem C10_yield_canonical (w : World) (repos users sites : List String)
    (r u c : String)
    (h : (r, u, c) ∈ (searchGen w repos users sites).yields) :
    siteHasTemplate c = true ∧ strLower c = c ∧ resolveSite c = .ok c := by
  rcases searchGen_yield_site w repos users sites (r, u, c) h with hc | hc
  · have hc' : c = "bitbucket" := hc
    subst hc'
    exact ⟨by decide, rfl, rfl⟩
  · have hc' : c = "github" := hc
    subst hc'
    exact ⟨by decide, rfl, rfl⟩

/-- Claim C10, witness: the caller-supplied site GitHub.zip is yielded as the
canonical github, which is a table key and resolves to itself. -/
theorem C10_yield_canonical_witness :
    siteHasTemplate "github" = true ∧ strLower "github" = "github" ∧
      resolveSite "github" = .ok "github" :=
  C10_yield_canonical ⟨fun _ => .failClean, fun _ => true⟩ ["foo"] ["al"]
    ["GitHub.zip"] "foo" "al" "github" (by decide)

end Clone
